import Mathlib

/-!
# Verification of the Universal SCPI GUI core

Shallow embedding of the command-descriptor parsing / template-substitution
engine (`app.py`) and the alias-based instrument registry
(`universal_pyvisa.py`), together with proofs about the frozen claims.

Python string builtins are modelled by explicit, executable list-based
functions:
* `pyStrip` models `str.strip()` (whitespace trimming on both ends),
* `pyCasefold` models `str.casefold()` / `str.lower()` (ASCII lowering),
* `pySplit` models `str.split(sep)` for a one-character separator,
* `pySplitWs` models `str.split()` (split on whitespace runs, dropping
  empty tokens),
* `splitFirstAt` models the combination of `sep in s` and `s.split(sep, 1)`,
* `replaceAllLFuel` models `re.sub` with a literal (escaped) pattern,
* `grabBrace`, `hasPlaceholderL`, `subAllLFuel`, `placeholderNamesLFuel`
  model the regex `\x7b[^\x7d]+\x7d` (search / sub / finditer): a match runs
  from a `{` to the first following `}` with at least one character between.
The transport layer (pyvisa) is modelled by an oracle
`Instrument → String → String` giving each instrument's reply to a query,
and dispatches are recorded as an explicit list of `Call`s.
-/

deriving instance DecidableEq for Except

/-- Models Python `str.strip()`: drop whitespace from both ends. -/
def pyStrip (s : String) : String :=
  String.mk (((s.toList.dropWhile Char.isWhitespace).reverse.dropWhile Char.isWhitespace).reverse)

/-- Models Python `str.casefold()` and `str.lower()` (ASCII lowering). -/
def pyCasefold (s : String) : String :=
  String.mk (s.toList.map Char.toLower)

/-- Split a character list at every occurrence of `sep`, keeping empty pieces,
as Python `str.split(sep)` does for a one-character separator. -/
def splitOnCharL (sep : Char) : List Char → List (List Char)
  | [] => [[]]
  | c :: rest =>
    let r := splitOnCharL sep rest
    if c = sep then [] :: r
    else
      match r with
      | [] => [[c]]
      | h :: t => (c :: h) :: t

/-- Models Python `s.split(sep)` for a one-character separator. -/
def pySplit (s : String) (sep : Char) : List String :=
  (splitOnCharL sep s.toList).map String.mk

/-- Split a character list at every whitespace character, keeping empty
pieces. -/
def splitWsL : List Char → List (List Char)
  | [] => [[]]
  | c :: rest =>
    let r := splitWsL rest
    if c.isWhitespace then [] :: r
    else
      match r with
      | [] => [[c]]
      | h :: t => (c :: h) :: t

/-- Models Python `s.split()`: split on whitespace runs, dropping empties. -/
def pySplitWs (s : String) : List String :=
  ((splitWsL s.toList).map String.mk).filter (fun t => t ≠ "")

/-- Models the combination of Python `sep in s` (`some` iff it holds) and
`s.split(sep, 1)`: split at the first occurrence of `sep` only. -/
def splitFirstAt (sep : Char) : List Char → Option (List Char × List Char)
  | [] => none
  | c :: rest =>
    if c = sep then some ([], rest)
    else (splitFirstAt sep rest).map (fun p => (c :: p.1, p.2))

/-- Concatenation of a list of strings (used to state what the registry's
`query` loop computes). -/
def concatAll : List String → String
  | [] => ""
  | s :: rest => s ++ concatAll rest

/-- Scan forward to the first `}`: returns the characters before it and the
characters after it.  `none` when no `}` remains. -/
def grabBrace : List Char → Option (List Char × List Char)
  | [] => none
  | c :: rest =>
    if c = '}' then some ([], rest)
    else (grabBrace rest).map (fun p => (c :: p.1, p.2))

/-- Models `re.search` for the placeholder pattern `\x7b[^\x7d]+\x7d`:
is there a `{`…`}` pair with at least one character in between? -/
def hasPlaceholderL : List Char → Bool
  | [] => false
  | c :: rest =>
    if c = '{' then
      match grabBrace rest with
      | some (inside, _) => if inside = [] then hasPlaceholderL rest else true
      | none => hasPlaceholderL rest
    else hasPlaceholderL rest

/-- Models `re.search(r"\x7b[^\x7d]+\x7d", s)` as a Bool. -/
def hasPlaceholder (s : String) : Bool :=
  hasPlaceholderL s.toList

/-- Models `re.sub(r"\x7b[^\x7d]+\x7d", repl, ·)`: replace every placeholder
match by `repl`, left to right, non-overlapping.  The fuel argument (seeded
with the list length, which the scan never exceeds) keeps the recursion
structural. -/
def subAllLFuel (repl : List Char) : Nat → List Char → List Char
  | _, [] => []
  | 0, l => l
  | f + 1, c :: rest =>
    if c = '{' then
      match grabBrace rest with
      | some (inside, after) =>
        if inside = [] then c :: subAllLFuel repl f rest
        else repl ++ subAllLFuel repl f after
      | none => c :: subAllLFuel repl f rest
    else c :: subAllLFuel repl f rest

/-- Replace every `\x7b[^\x7d]+\x7d` placeholder in `s` by `repl`. -/
def subAllPlaceholders (repl : String) (s : String) : String :=
  String.mk (subAllLFuel repl.toList s.toList.length s.toList)

/-- Models `re.finditer(r"\x7b([^\x7d]+)\x7d", t)` followed by
`group(1).strip()` on each match, in left-to-right order. -/
def placeholderNamesLFuel : Nat → List Char → List String
  | 0, _ => []
  | _ + 1, [] => []
  | f + 1, c :: rest =>
    if c = '{' then
      match grabBrace rest with
      | some (inside, after) =>
        if inside = [] then placeholderNamesLFuel f rest
        else pyStrip (String.mk inside) :: placeholderNamesLFuel f after
      | none => placeholderNamesLFuel f rest
    else placeholderNamesLFuel f rest

/-- `app.py` `_first_placeholder_names`: the trimmed names of all
`\x7b...\x7d` placeholder tokens of a command template, in order. -/
def _first_placeholder_names (cmd_template : String) : List String :=
  placeholderNamesLFuel cmd_template.toList.length cmd_template.toList

/-- Models `re.sub(re.escape(pat), repl, ·)` for a non-empty literal pattern:
replace each left-to-right non-overlapping occurrence. -/
def replaceAllLFuel (pat repl : List Char) : Nat → List Char → List Char
  | _, [] => []
  | 0, l => l
  | f + 1, c :: rest =>
    if pat ≠ [] ∧ pat.isPrefixOf (c :: rest) then
      repl ++ replaceAllLFuel pat repl f ((c :: rest).drop pat.length)
    else c :: replaceAllLFuel pat repl f rest

/-- `app.py` line 353/376: substitute every occurrence of the literal token
`\x7b name \x7d` in `cmd` by `v`. -/
def replaceToken (cmd name v : String) : String :=
  String.mk (replaceAllLFuel ("\x7b" ++ name ++ "\x7d").toList v.toList cmd.toList.length cmd.toList)

/-! ## ValueFormatter (`app.py` `_apply_format_spec`)

Python `float(value)` and `f"\x7bf:.\x7bdecimals\x7df\x7d"` are builtins; they
are modelled over exact decimal numbers: `parseFloat` accepts finite decimal
literals (optional sign, digits with an optional point, an optional
`e`/`E` exponent, surrounding whitespace) and returns a sign bit plus a
non-negative magnitude `mant × 10 ^ exp` given as a mantissa and a decimal
exponent; `renderFixed` renders that magnitude with round-half-even and
exactly `decimals` digits after the point.  (`inf`/`nan` literals and
digit-group underscores are outside the modelled domain, and the exact
decimal value stands in for the nearest IEEE double.) -/

/-- The character for a single decimal digit (callers pass values `< 10`). -/
def digitChar : Nat → Char
  | 0 => '0' | 1 => '1' | 2 => '2' | 3 => '3' | 4 => '4'
  | 5 => '5' | 6 => '6' | 7 => '7' | 8 => '8' | _ => '9'

/-- Numeric value of a list of decimal digit characters. -/
def digitsValL (l : List Char) : Nat :=
  l.foldl (fun n c => n * 10 + (c.toNat - 48)) 0

/-- Decimal digits of `n`, least significant first (`[]` for `0`); the fuel
is seeded with `n` itself, which bounds the digit count. -/
def natDigsRevFuel : Nat → Nat → List Char
  | 0, _ => []
  | f + 1, n => if n = 0 then [] else digitChar (n % 10) :: natDigsRevFuel f (n / 10)

/-- Decimal representation of a natural number as characters. -/
def natReprL (n : Nat) : List Char :=
  if n = 0 then ['0'] else (natDigsRevFuel n n).reverse

/-- Exactly `k` decimal digit characters: the last `k` digits of `f`,
zero-padded on the left. -/
def padDigits : Nat → Nat → List Char
  | 0, _ => []
  | k + 1, f => padDigits k (f / 10) ++ [digitChar (f % 10)]

/-- Number of characters after the (last) decimal point of a rendered value;
`0` when there is no point. -/
def decPlaces (s : String) : Nat :=
  if '.' ∈ s.toList then (s.toList.reverse.takeWhile (fun c => c ≠ '.')).length else 0

/-- Models `re.fullmatch(r"V\.(\d+)f", fmt.strip(), re.IGNORECASE)`: `some n`
with the decimal count iff the trimmed spec is `V`/`v`, a point, one or more
digits, then `f`/`F`. -/
def fmtMatch (fmt : String) : Option Nat :=
  match (pyStrip fmt).toList with
  | v :: dot :: rest =>
    if v = 'V' ∨ v = 'v' then
      if dot = '.' then
        match rest.reverse with
        | fc :: dsRev =>
          if (fc = 'f' ∨ fc = 'F') ∧ dsRev ≠ [] ∧ dsRev.all Char.isDigit then
            some (digitsValL dsRev.reverse)
          else none
        | [] => none
      else none
    else none
  | _ => none

/-- Exponent digits of a float literal: non-empty all-digit suffix. -/
def expDigits (ds : List Char) : Option Nat :=
  if ds ≠ [] ∧ ds.all Char.isDigit then some (digitsValL ds) else none

/-- The decimal exponent contributed by an optional `e`/`E` suffix. -/
def parseExpInt : List Char → Option Int
  | [] => some 0
  | e :: rest =>
    if e = 'e' ∨ e = 'E' then
      match rest with
      | '+' :: ds => (expDigits ds).map (fun n => (n : Int))
      | '-' :: ds => (expDigits ds).map (fun n => -(n : Int))
      | ds => (expDigits ds).map (fun n => (n : Int))
    else none

/-- Magnitude of an unsigned float literal — digits, optional point, optional
exponent, at least one mantissa digit — as `(mant, exp)` with value
`mant × 10 ^ exp`. -/
def parseFloatMag (l : List Char) : Option (Nat × Int) :=
  let ip := l.takeWhile Char.isDigit
  let r1 := l.dropWhile Char.isDigit
  match r1 with
  | '.' :: r2 =>
    let fp := r2.takeWhile Char.isDigit
    let r3 := r2.dropWhile Char.isDigit
    if ip = [] ∧ fp = [] then none
    else (parseExpInt r3).map (fun e => (digitsValL (ip ++ fp), e - fp.length))
  | _ =>
    if ip = [] then none
    else (parseExpInt r1).map (fun e => (digitsValL ip, e))

/-- Models Python `float(value)` on finite decimal literals: strips
whitespace, reads an optional sign, and returns the sign bit together with
the non-negative decimal magnitude. -/
def parseFloat (value : String) : Option (Bool × Nat × Int) :=
  match (pyStrip value).toList with
  | '+' :: r => (parseFloatMag r).map (fun m => (false, m))
  | '-' :: r => (parseFloatMag r).map (fun m => (true, m))
  | l => (parseFloatMag l).map (fun m => (false, m))

/-- `a / b` rounded to the nearest integer, ties to even (the rounding of
Python's fixed-point float formatting); `b > 0`. -/
def roundHalfEvenDiv (a b : Nat) : Nat :=
  let q := a / b
  let r := a % b
  if 2 * r < b then q
  else if b < 2 * r then q + 1
  else if q % 2 = 0 then q else q + 1

/-- The magnitude `mant × 10 ^ e` scaled by `10 ^ decimals` and rounded
half-even to an integer. -/
def scaledRounded (decimals : Nat) (mant : Nat) (e : Int) : Nat :=
  let k := e + decimals
  if 0 ≤ k then mant * 10 ^ k.toNat else roundHalfEvenDiv mant (10 ^ (-k).toNat)

/-- Models `f"\x7bf:.\x7bdecimals\x7df\x7d"` on the parsed decimal: the sign
(kept even when the magnitude rounds to zero, as Python does), the integer
digits, and — when `decimals > 0` — a point followed by exactly `decimals`
digits. -/
def renderFixed (decimals : Nat) (sgn : Bool) (mant : Nat) (e : Int) : String :=
  let m := scaledRounded decimals mant e
  let ip := m / 10 ^ decimals
  let fp := m % 10 ^ decimals
  String.mk ((if sgn then ['-'] else []) ++ natReprL ip ++
    (if decimals = 0 then [] else '.' :: padDigits decimals fp))

/-- `app.py` `_apply_format_spec` (lines 132-149): empty spec or unmatched
spec or unparsable value pass the value through; otherwise re-render with the
requested number of decimals. -/
def _apply_format_spec (value : String) (fmt : String) : String :=
  if fmt = "" then value
  else
    match fmtMatch fmt with
    | none => value
    | some decimals =>
      match parseFloat value with
      | none => value
      | some (sgn, mant, e) => renderFixed decimals sgn mant e

/-! ## ParameterSpecParser (`app.py` `parse_param_defs`) -/

/-- `app.py` `ParamDef`: parameter name, kind (`"free"` or `"options"`),
allowed options, and format spec. -/
structure ParamDef where
  name : String
  kind : String
  options : List String
  format_spec : String
deriving DecidableEq

/-- The `for part in parts` loop body of `parse_param_defs` (lines 65-80):
empty parts are skipped; a part with `:` is split at the first `:`, giving an
options parameter when the right side contains `;` and otherwise a free
parameter with the right side as format spec; a part without `:` is a free
parameter named by the whole part. -/
def parseParts : List String → List ParamDef
  | [] => []
  | part :: rest =>
    if part = "" then parseParts rest
    else
      match splitFirstAt ':' part.toList with
      | some (l, r) =>
        let left := pyStrip (String.mk l)
        let right := pyStrip (String.mk r)
        if right.toList.contains ';' then
          { name := left, kind := "options",
            options := ((pySplit right ';').map pyStrip).filter (fun o => o ≠ ""),
            format_spec := "" } :: parseParts rest
        else
          { name := left, kind := "free", options := [], format_spec := right } :: parseParts rest
      | none =>
        { name := part, kind := "free", options := [], format_spec := "" } :: parseParts rest

/-- `app.py` `parse_param_defs` (lines 56-82). -/
def parse_param_defs (parameters_raw : String) (cmd_template : String) : List ParamDef :=
  let s := pyStrip parameters_raw
  if s = "" ∨ pyCasefold s = "nan" ∨ pyCasefold s = "none" then
    (_first_placeholder_names cmd_template).map
      (fun p => { name := p, kind := "free", options := [], format_spec := "" })
  else
    parseParts ((pySplit s '|').map pyStrip)

/-- The claim's reading of one non-empty `|`-part (claim C1's wording): split
on the first `:`; with `;` on the right an OPTIONS parameter over the
non-empty trimmed tokens, else a FREE parameter with the trimmed right side
as format spec; without `:` a FREE parameter named by the whole part. -/
def claimInterpPart (part : String) : ParamDef :=
  match splitFirstAt ':' part.toList with
  | none => { name := part, kind := "free", options := [], format_spec := "" }
  | some (l, r) =>
    let left := pyStrip (String.mk l)
    let right := pyStrip (String.mk r)
    if right.toList.contains ';' then
      { name := left, kind := "options",
        options := ((pySplit right ';').map pyStrip).filter (fun o => o ≠ ""),
        format_spec := "" }
    else { name := left, kind := "free", options := [], format_spec := right }

/-! ## InstrumentRegistry (`universal_pyvisa.py`) -/

/-- `universal_pyvisa.py` `DeviceKind`. -/
inductive DeviceKind
  | VISA
  | SERIAL_115200_LF
deriving DecidableEq

/-- `universal_pyvisa.py` `Instrument`: identity fields may be `none` (the
discovery parser stores Python `None` when the identity response has too few
parts); `alias` starts out unset. -/
structure Instrument where
  visa_name : String
  dev_kind : DeviceKind
  vendor : Option String
  model : Option String
  serial : Option String
  «alias» : Option String
deriving DecidableEq

/-- Result of attempting the identity query on one enumerated resource:
either the response string, or a (timeout / VISA / other) error, which the
scan skips. -/
inductive ScanOutcome
  | reply (response : String)
  | failed
deriving DecidableEq

/-- `find_instruments`: serial resources are those whose name starts with
`ASRL`. -/
def devKindFor (r : String) : DeviceKind :=
  if "ASRL".toList.isPrefixOf r.toList then DeviceKind.SERIAL_115200_LF else DeviceKind.VISA

/-- `find_instruments` lines 134-137: choose the delimiter — comma-separated
non-empty trimmed parts when the response holds at least three commas, else
whitespace splitting. -/
def parseIdnParts (response : String) : List String :=
  if response.toList.count ',' ≥ 3 then
    ((pySplit response ',').map pyStrip).filter (fun p => p ≠ "")
  else pySplitWs response

/-- One iteration of the `find_instruments` scan loop (lines 103-156): a
failed attempt is skipped; a reply longer than 8 characters is parsed into
vendor (`parts[0]`), model (`parts[1]`) and serial (the remaining parts
joined by spaces), each `none` when missing; anything else is skipped. -/
def scanResource (r : String) (o : ScanOutcome) : Option Instrument :=
  match o with
  | ScanOutcome.failed => none
  | ScanOutcome.reply response =>
    if response.length > 8 then
      let parts := parseIdnParts response
      some { visa_name := r, dev_kind := devKindFor r,
             vendor := parts[0]?, model := parts[1]?,
             serial := if parts.length > 2 then some (String.intercalate " " (parts.drop 2)) else none,
             «alias» := none }
    else none

/-- `universal_pyvisa.py` `upyvisa` state: the instrument collection. -/
structure upyvisaState where
  instrument_collection : List Instrument
deriving DecidableEq

/-- `upyvisa.find_instruments` (lines 98-156): the collection is reset to
empty and rebuilt from scratch from the enumerated resources. -/
def find_instruments (_st : upyvisaState) (env : List (String × ScanOutcome)) : upyvisaState :=
  { instrument_collection := env.filterMap (fun entry => scanResource entry.1 entry.2) }

/-- Alias comparison used by `upyvisa.query` / `upyvisa.write` (lines 175,
183): an unset alias never matches; otherwise trim-and-casefold equality. -/
def aliasMatch (i : Instrument) («alias» : String) : Bool :=
  match i.alias with
  | none => false
  | some a => pyCasefold (pyStrip a) = pyCasefold (pyStrip «alias»)

/-- The instruments a given alias resolves to (the filter the `query` loop
walks). -/
def matchingInstruments (coll : List Instrument) («alias» : String) : List Instrument :=
  coll.filter (fun i => aliasMatch i «alias»)

/-- A recorded transport dispatch. -/
inductive Call
  | query (visa_name cmd : String)
  | write (visa_name cmd : String)
deriving DecidableEq

/-- Whether a recorded dispatch is a query. -/
def Call.isQuery : Call → Bool
  | Call.query _ _ => true
  | Call.write _ _ => false

/-- The `upyvisa.query` loop (lines 171-178): each matching instrument is
queried in collection order and its response is *prepended* to the
accumulator; `oracle` stands for the transport's reply. -/
def upyvisa_query_go (oracle : Instrument → String → String) («alias» cmd : String) :
    List Instrument → String → List Call → String × List Call
  | [], acc, calls => (acc, calls)
  | i :: rest, acc, calls =>
    if aliasMatch i «alias» then
      upyvisa_query_go oracle «alias» cmd rest (oracle i cmd ++ acc)
        (calls ++ [Call.query i.visa_name cmd])
    else upyvisa_query_go oracle «alias» cmd rest acc calls

/-- `upyvisa.query` (lines 171-178), also recording the transport calls. -/
def upyvisa_query (coll : List Instrument) (oracle : Instrument → String → String)
    («alias» cmd : String) : String × List Call :=
  upyvisa_query_go oracle «alias» cmd coll "" []

/-- `upyvisa.write` (lines 180-186): dispatch to the first matching
instrument only; an unmatched alias is a logged no-op. -/
def upyvisa_write : List Instrument → String → String → List Call
  | [], _, _ => []
  | i :: rest, «alias», cmd =>
    if aliasMatch i «alias» then [Call.write i.visa_name cmd]
    else upyvisa_write rest «alias» cmd

/-- Lift an alias-search result over a retained head instrument
(`set_alias`'s loop keeps scanning the tail when the head does not match). -/
def consResult (inst : Instrument) :
    Except String (Int × List Instrument) → Except String (Int × List Instrument)
  | Except.ok (r, rest') => Except.ok (r, inst :: rest')
  | Except.error e => Except.error e

/-- `upyvisa.set_alias` (lines 158-169): find the first instrument whose
vendor, model and serial all match (trim + casefold), set its alias, and
return `1`; return `-1` when nothing matches.  Python evaluates
`instrument.vendor.strip()` (and, short-circuiting, `.model.strip()` /
`.serial.strip()`), which raises `AttributeError` on a `None` field; this is
the `Except.error` case. -/
def set_alias : List Instrument → String → String → String → String →
    Except String (Int × List Instrument)
  | [], _, _, _, _ => Except.ok (-1, [])
  | inst :: rest, «alias», vendor, model, serial =>
    match inst.vendor with
    | none => Except.error "AttributeError"
    | some iv =>
      if pyCasefold (pyStrip iv) = pyCasefold (pyStrip vendor) then
        match inst.model with
        | none => Except.error "AttributeError"
        | some im =>
          if pyCasefold (pyStrip im) = pyCasefold (pyStrip model) then
            match inst.serial with
            | none => Except.error "AttributeError"
            | some isr =>
              if pyCasefold (pyStrip isr) = pyCasefold (pyStrip serial) then
                Except.ok (1, { inst with «alias» := some «alias» } :: rest)
              else consResult inst (set_alias rest «alias» vendor model serial)
          else consResult inst (set_alias rest «alias» vendor model serial)
      else consResult inst (set_alias rest «alias» vendor model serial)

/-! ## App layer (`app.py` routes `/api/run` and `/api/custom`)

The JSON boundary is typed away: the values map is an insertion-ordered
association list (Python dicts preserve insertion order), `None` inputs are
`Option`s, and the catalog is the association list behind `SCPI_DEFS`. -/

/-- `app.py` `ScpiCommand`. -/
structure ScpiCommand where
  name : String
  cmd : String
  mode : String
  parameters_raw : String
deriving DecidableEq

/-- First-match association-list lookup (Python dict access; JSON object keys
are unique, so first match is dict semantics). -/
def lookupAssoc {α : Type} : List (String × α) → String → Option α
  | [], _ => none
  | (k, v) :: rest, key => if k = key then some v else lookupAssoc rest key

/-- `SCPI_DEFS.get(model, [])` with `model` possibly `None` (line 327). -/
def modelCmds (catalog : List (String × List ScpiCommand)) : Option String → List ScpiCommand
  | none => []
  | some m =>
    match lookupAssoc catalog m with
    | some cs => cs
    | none => []

/-- Line 328: first cataloged command whose name casefold-matches. -/
def findCmdByName : List ScpiCommand → String → Option ScpiCommand
  | [], _ => none
  | c :: rest, n =>
    if pyCasefold c.name = pyCasefold n then some c else findCmdByName rest n

/-- Line 321: first instrument whose alias (or `""` when unset)
casefold-matches the requested alias (no trimming on the stored alias
at this point). -/
def findByAlias : List Instrument → String → Option Instrument
  | [], _ => none
  | i :: rest, a =>
    if pyCasefold (i.alias.getD "") = pyCasefold a then some i else findByAlias rest a

/-- Lines 334-338: the single-scalar convenience — when no values map is
supplied, a non-blank `value` and exactly one parameter def map that scalar
onto the parameter's name; otherwise a missing map becomes empty. -/
def effectiveValues (values : Option (List (String × String))) (single_value : String) :
    List ParamDef → List (String × String)
  | [d] =>
    match values with
    | some vs => vs
    | none => if single_value ≠ "" then [(d.name, single_value)] else []
  | _ =>
    match values with
    | some vs => vs
    | none => []

/-- Lines 348/369: a parameter's supplied value is absent or blank after
trimming. -/
def missingIn (vs : List (String × String)) (d : ParamDef) : Bool :=
  match lookupAssoc vs d.name with
  | none => true
  | some raw => pyStrip raw = ""

/-- The per-parameter loop shared by the GET branch (lines 347-353) and the
SET branch (lines 368-376): each def's value must be present and non-blank
(else the request fails naming that def), free values pass through the
formatter, and every literal `\x7bname\x7d` token is substituted. -/
def substituteDefs : List ParamDef → List (String × String) → String → Except String String
  | [], _, cmd => Except.ok cmd
  | d :: rest, vs, cmd =>
    match lookupAssoc vs d.name with
    | none => Except.error d.name
    | some raw =>
      if pyStrip raw = "" then Except.error d.name
      else
        let v := if d.kind = "free" then _apply_format_spec (pyStrip raw) d.format_spec
                 else pyStrip raw
        substituteDefs rest vs (replaceToken cmd d.name v)

/-- Lines 355-357 / 378-381: when a placeholder still remains and the values
map is non-empty, every remaining placeholder is replaced by the trimmed
first value of the map (insertion order). -/
def applyFallback (values : List (String × String)) (cmd : String) : String :=
  match values with
  | [] => cmd
  | (_, v0) :: _ =>
    if hasPlaceholder cmd then subAllPlaceholders (pyStrip v0) cmd else cmd

/-- Outcome of `/api/run` as seen by the caller. -/
inductive RunResult
  | badRequest (msg : String)
  | notFound (msg : String)
  | missingValue (paramName : String)
  | okGet (cmd response : String)
  | okSet (cmd : String)
deriving DecidableEq

/-- `app.py` `api_run` (lines 307-386): resolve the alias, find the cataloged
command, parse its parameter defs, apply the single-value convenience,
substitute, and dispatch as query (GET) or write (SET).  Returns the caller
outcome, the transport calls made, and the instrument collection afterwards
(the handler never mutates it). -/
def api_run (catalog : List (String × List ScpiCommand)) (coll : List Instrument)
    (oracle : Instrument → String → String) («alias» cmd_name : String)
    (values : Option (List (String × String))) (single_value : String) :
    RunResult × List Call × List Instrument :=
  let a := pyStrip «alias»
  let n := pyStrip cmd_name
  let sv := pyStrip single_value
  if a = "" ∨ n = "" then (RunResult.badRequest "Missing alias/name", [], coll)
  else
    match findByAlias coll a with
    | none => (RunResult.notFound "Alias not found", [], coll)
    | some inst =>
      match findCmdByName (modelCmds catalog inst.model) n with
      | none => (RunResult.notFound "Command not found", [], coll)
      | some c =>
        let param_defs := parse_param_defs c.parameters_raw c.cmd
        let vs := effectiveValues values sv param_defs
        if c.mode = "GET" then
          if param_defs = [] then
            let qr := upyvisa_query coll oracle a (pyStrip c.cmd)
            (RunResult.okGet (pyStrip c.cmd) qr.1, qr.2, coll)
          else
            match substituteDefs param_defs vs (pyStrip c.cmd) with
            | Except.error missing => (RunResult.missingValue missing, [], coll)
            | Except.ok w =>
              let w2 := applyFallback vs w
              let qr := upyvisa_query coll oracle a w2
              (RunResult.okGet w2 qr.1, qr.2, coll)
        else
          if param_defs = [] then
            (RunResult.okSet (pyStrip c.cmd), upyvisa_write coll a (pyStrip c.cmd), coll)
          else
            match substituteDefs param_defs vs (pyStrip c.cmd) with
            | Except.error missing => (RunResult.missingValue missing, [], coll)
            | Except.ok w =>
              let w2 := applyFallback vs w
              (RunResult.okSet w2, upyvisa_write coll a w2, coll)

/-- Outcome of `/api/custom` as seen by the caller. -/
inductive CustomResult
  | badRequest (msg : String)
  | ok (cmd response : String)
deriving DecidableEq

/-- `app.py` `api_custom` (lines 389-409): a non-blank ad-hoc command is
dispatched as a query when it contains `?` (returning the response),
otherwise as a write (returning `""`). -/
def api_custom (coll : List Instrument) (oracle : Instrument → String → String)
    («alias» cmd : String) : CustomResult × List Call :=
  let a := pyStrip «alias»
  let c := pyStrip cmd
  if a = "" ∨ c = "" then (CustomResult.badRequest "Missing alias/cmd", [])
  else if c.toList.contains '?' then
    let qr := upyvisa_query coll oracle a c
    (CustomResult.ok c qr.1, qr.2)
  else (CustomResult.ok c "", upyvisa_write coll a c)

/-! ## Shared lemmas -/

/-- The parse loop keeps exactly the non-empty parts, each interpreted
independently. -/
theorem parseParts_eq (l : List String) :
    parseParts l = (l.filter (fun p => p ≠ "")).map claimInterpPart := by
  induction l with
  | nil => rfl
  | cons part rest ih =>
    by_cases hp : part = ""
    · simp [parseParts, hp, ih]
    · rw [List.filter_cons_of_pos (by simp [hp]), List.map_cons, ← ih]
      show parseParts (part :: rest) = claimInterpPart part :: parseParts rest
      cases hsf : splitFirstAt ':' part.toList with
      | none => simp only [parseParts, claimInterpPart, if_neg hp, hsf]
      | some pr =>
        obtain ⟨l₁, r₁⟩ := pr
        simp only [parseParts, claimInterpPart, if_neg hp, hsf]
        split <;> rfl

theorem concatAll_append (a b : List String) :
    concatAll (a ++ b) = concatAll a ++ concatAll b := by
  induction a with
  | nil => simp [concatAll, String.append_assoc]
  | cons s rest ih => simp [concatAll, ih, String.append_assoc]

theorem concatAll_snoc (a : List String) (s : String) :
    concatAll (a ++ [s]) = concatAll a ++ s := by
  rw [concatAll_append]
  simp [concatAll, String.append_empty]

/-- Closed form of the `upyvisa.query` loop: responses of the matching
instruments concatenated in reverse collection order, one query call per
matching instrument in collection order. -/
theorem upyvisa_query_go_spec (oracle : Instrument → String → String)
    («alias» cmd : String) (l : List Instrument) (acc : String) (calls : List Call) :
    upyvisa_query_go oracle «alias» cmd l acc calls
      = (concatAll (((matchingInstruments l «alias»).map (fun i => oracle i cmd)).reverse) ++ acc,
         calls ++ (matchingInstruments l «alias»).map (fun i => Call.query i.visa_name cmd)) := by
  induction l generalizing acc calls with
  | nil => simp [upyvisa_query_go, matchingInstruments, concatAll]
  | cons i rest ih =>
    by_cases hm : aliasMatch i «alias»
    · simp only [upyvisa_query_go, if_pos hm, ih]
      simp [matchingInstruments, List.filter_cons_of_pos, hm, concatAll_snoc,
        String.append_assoc]
    · simp only [upyvisa_query_go, if_neg hm, ih]
      simp [matchingInstruments, List.filter_cons_of_neg, hm]

/-- `upyvisa.query` in closed form. -/
theorem upyvisa_query_spec (coll : List Instrument) (oracle : Instrument → String → String)
    («alias» cmd : String) :
    upyvisa_query coll oracle «alias» cmd
      = (concatAll (((matchingInstruments coll «alias»).map (fun i => oracle i cmd)).reverse),
         (matchingInstruments coll «alias»).map (fun i => Call.query i.visa_name cmd)) := by
  rw [upyvisa_query, upyvisa_query_go_spec]
  simp [String.append_empty]

/-- If some def's value is missing the substitution loop fails, naming a def
whose value is missing. -/
theorem substituteDefs_error_of_missing (defs : List ParamDef)
    (vs : List (String × String)) (cmd : String)
    (h : ∃ d ∈ defs, missingIn vs d = true) :
    ∃ d ∈ defs, missingIn vs d = true ∧
      substituteDefs defs vs cmd = Except.error d.name := by
  induction defs generalizing cmd with
  | nil => simp at h
  | cons d rest ih =>
    by_cases hd : missingIn vs d = true
    · refine ⟨d, List.mem_cons_self d rest, hd, ?_⟩
      rw [missingIn] at hd
      cases hl : lookupAssoc vs d.name with
      | none => simp [substituteDefs, hl]
      | some raw =>
        rw [hl] at hd
        simp only [decide_eq_true_eq] at hd
        simp [substituteDefs, hl, hd]
    · have hrest : ∃ x ∈ rest, missingIn vs x = true := by
        rcases h with ⟨x, hx, hmx⟩
        rcases List.mem_cons.mp hx with rfl | hxr
        · exact absurd hmx hd
        · exact ⟨x, hxr, hmx⟩
      rw [missingIn] at hd
      cases hl : lookupAssoc vs d.name with
      | none => simp [hl] at hd
      | some raw =>
        rw [hl] at hd
        simp only [decide_eq_true_eq] at hd
        have hne : ¬ pyStrip raw = "" := by
          intro hh
          exact hd (by simp [hh])
        obtain ⟨x, hxr, hmx, heq⟩ :=
          ih (replaceToken cmd d.name
            (if d.kind = "free" then _apply_format_spec (pyStrip raw) d.format_spec
             else pyStrip raw)) hrest
        exact ⟨x, List.mem_cons_of_mem d hxr, hmx, by simp [substituteDefs, hl, hne, heq]⟩

/-- A successful substitution over a non-empty def list implies the values
map is non-empty. -/
theorem substituteDefs_ok_values_ne_nil (d : ParamDef) (rest : List ParamDef)
    (vs : List (String × String)) (cmd w : String)
    (h : substituteDefs (d :: rest) vs cmd = Except.ok w) : vs ≠ [] := by
  intro hv
  subst hv
  simp [substituteDefs, lookupAssoc] at h

theorem digitChar_ne_dot (d : Nat) : digitChar d ≠ '.' := by
  unfold digitChar
  split <;> decide

theorem padDigits_length (k f : Nat) : (padDigits k f).length = k := by
  induction k generalizing f with
  | zero => rfl
  | succ k ih => simp [padDigits, ih]

theorem padDigits_ne_dot (k f : Nat) : ∀ c ∈ padDigits k f, c ≠ '.' := by
  induction k generalizing f with
  | zero => simp [padDigits]
  | succ k ih =>
    intro c hc
    rw [padDigits] at hc
    rcases List.mem_append.mp hc with h | h
    · exact ih _ c h
    · simp only [List.mem_singleton] at h
      exact h ▸ digitChar_ne_dot _
theorem natDigsRevFuel_ne_dot (f : Nat) : ∀ n, ∀ c ∈ natDigsRevFuel f n, c ≠ '.' := by
  induction f with
  | zero => simp [natDigsRevFuel]
  | succ f ih =>
    intro n c hc
    rw [natDigsRevFuel] at hc
    by_cases hn : n = 0
    · simp [hn] at hc
    · rw [if_neg hn] at hc
      rcases List.mem_cons.mp hc with rfl | h
      · exact digitChar_ne_dot _
      · exact ih _ c h

theorem natReprL_ne_dot (n : Nat) : ∀ c ∈ natReprL n, c ≠ '.' := by
  intro c hc
  rw [natReprL] at hc
  by_cases hn : n = 0
  · rw [if_pos hn] at hc
    simp only [List.mem_singleton] at hc
    subst hc
    decide
  · rw [if_neg hn] at hc
    exact natDigsRevFuel_ne_dot n n c (List.mem_reverse.mp hc)

theorem takeWhile_ne_dot_append (P A : List Char) (h : ∀ c ∈ P, c ≠ '.') :
    (P ++ '.' :: A).takeWhile (fun c => c ≠ '.') = P := by
  induction P with
  | nil => simp [List.takeWhile]
  | cons c P ih =>
    have hc : c ≠ '.' := h c (List.mem_cons_self c P)
    rw [List.cons_append, List.takeWhile_cons, if_pos (by simp [hc])]
    rw [ih (fun x hx => h x (List.mem_cons_of_mem c hx))]

theorem toList_mk (l : List Char) : (String.mk l).toList = l := rfl

/-- The rendering of `renderFixed` has exactly `decimals` digits after the
point (and no point at all when `decimals = 0`). -/
theorem decPlaces_renderFixed (decimals : Nat) (sgn : Bool) (mant : Nat) (e : Int) :
    decPlaces (renderFixed decimals sgn mant e) = decimals := by
  rw [renderFixed, decPlaces]
  cases decimals with
  | zero =>
    rw [if_neg]
    intro hmem
    rw [toList_mk, if_pos rfl, List.append_nil] at hmem
    rcases List.mem_append.mp hmem with h | h
    · revert h
      cases sgn <;> decide
    · exact natReprL_ne_dot _ '.' h rfl
  | succ k =>
    rw [toList_mk]
    have hrw : (if k + 1 = 0 then ([] : List Char)
        else '.' :: padDigits (k + 1) (scaledRounded (k + 1) mant e % 10 ^ (k + 1)))
        = '.' :: padDigits (k + 1) (scaledRounded (k + 1) mant e % 10 ^ (k + 1)) := by
      simp
    rw [hrw]
    rw [if_pos (by simp)]
    have hrev : ((if sgn then ['-'] else []) ++ natReprL (scaledRounded (k + 1) mant e / 10 ^ (k + 1)) ++
        '.' :: padDigits (k + 1) (scaledRounded (k + 1) mant e % 10 ^ (k + 1))).reverse
        = (padDigits (k + 1) (scaledRounded (k + 1) mant e % 10 ^ (k + 1))).reverse ++
          '.' :: ((if sgn then ['-'] else []) ++ natReprL (scaledRounded (k + 1) mant e / 10 ^ (k + 1))).reverse := by
      simp [List.reverse_append]
    rw [hrev, takeWhile_ne_dot_append]
    · rw [List.length_reverse, padDigits_length]
    · intro c hc
      exact padDigits_ne_dot _ _ c (List.mem_reverse.mp hc)

/-- A template without `{` has no placeholder names. -/
theorem placeholderNamesLFuel_nil (f : Nat) :
    ∀ l : List Char, '{' ∉ l → placeholderNamesLFuel f l = [] := by
  induction f with
  | zero => intro l _; rfl
  | succ f ih =>
    intro l hl
    cases l with
    | nil => rfl
    | cons c rest =>
      have hc : c ≠ '{' := fun h => hl (h ▸ List.mem_cons_self c rest)
      have hrest : '{' ∉ rest := fun h => hl (List.mem_cons_of_mem c h)
      simp only [placeholderNamesLFuel, if_neg hc]
      exact ih rest hrest

/-- Every call recorded by `upyvisa.write` is a write dispatch. -/
theorem upyvisa_write_all_writes (coll : List Instrument) («alias» cmd : String) :
    ∀ call ∈ upyvisa_write coll «alias» cmd, call.isQuery = false := by
  induction coll with
  | nil => simp [upyvisa_write]
  | cons i rest ih =>
    intro call hcall
    rw [upyvisa_write] at hcall
    by_cases hm : aliasMatch i «alias»
    · rw [if_pos hm] at hcall
      simp only [List.mem_singleton] at hcall
      subst hcall
      rfl
    · rw [if_neg hm] at hcall
      exact ih call hcall

theorem pyCasefold_data (a : String) : (pyCasefold a).data = a.data.map Char.toLower := rfl

theorem pyCasefold_empty_iff (a : String) : pyCasefold a = "" ↔ a = "" := by
  constructor
  · intro h
    have hd := congrArg String.data h
    rw [pyCasefold_data] at hd
    have h2 : a.data = [] := List.map_eq_nil_iff.mp hd
    cases a
    simp_all
  · intro h
    rw [h]
    rfl

/-! ## Claim theorems -/

/-- C1: for a raw parameter spec that is non-empty after trimming and is not
"nan"/"none" (case-insensitively), `parse_param_defs` returns exactly one
`ParamDef` per non-empty trimmed `|`-separated part, in part order, each part
interpreted as the claim describes (`claimInterpPart`: no `:` gives a FREE
parameter named by the part; a `:` splits at the first `:`, a `;` on the
right gives an OPTIONS parameter over the non-empty trimmed tokens in order,
otherwise a FREE parameter with the trimmed right side as format spec). -/
theorem c1_parse_nonempty_spec (s t : String)
    (h1 : pyStrip s ≠ "") (h2 : pyCasefold (pyStrip s) ≠ "nan")
    (h3 : pyCasefold (pyStrip s) ≠ "none") :
    parse_param_defs s t
      = (((pySplit (pyStrip s) '|').map pyStrip).filter (fun p => p ≠ "")).map claimInterpPart ∧
    (parse_param_defs s t).length
      = (((pySplit (pyStrip s) '|').map pyStrip).filter (fun p => p ≠ "")).length := by
  have hcond : ¬ (pyStrip s = "" ∨ pyCasefold (pyStrip s) = "nan" ∨ pyCasefold (pyStrip s) = "none") := by
    push_neg
    exact ⟨h1, h2, h3⟩
  have hmain : parse_param_defs s t
      = (((pySplit (pyStrip s) '|').map pyStrip).filter (fun p => p ≠ "")).map claimInterpPart := by
    simp only [parse_param_defs]
    rw [if_neg hcond, parseParts_eq]
  exact ⟨hmain, by rw [hmain, List.length_map]⟩

theorem c1_witness :
    parse_param_defs "MODE:AUTO;MANUAL|CURRENT:V.3f| |x" "T"
      = [{ name := "MODE", kind := "options", options := ["AUTO", "MANUAL"], format_spec := "" },
         { name := "CURRENT", kind := "free", options := [], format_spec := "V.3f" },
         { name := "x", kind := "free", options := [], format_spec := "" }] ∧
    (parse_param_defs "MODE:AUTO;MANUAL|CURRENT:V.3f| |x" "T").length = 3 := by
  have h := c1_parse_nonempty_spec "MODE:AUTO;MANUAL|CURRENT:V.3f| |x" "T"
    (by decide) (by decide) (by decide)
  refine ⟨?_, ?_⟩
  · rw [h.1]
    decide
  · rw [h.2]
    decide

/-- C4: the value formatter returns the value unchanged for an empty spec,
an unrecognized spec, or an unparsable value; when the trimmed spec matches
`V.<N>f` (case-insensitively) and the value parses as a decimal number, the
value is re-rendered with exactly `N` decimal places (for example
`format("1.5", "V.3f") = "1.500"`), and no error is ever raised (the
function is total). -/
theorem c4_value_formatter :
    (∀ v, _apply_format_spec v "" = v)
  ∧ _apply_format_spec "1.5" "V.3f" = "1.500"
  ∧ _apply_format_spec "abc" "V.2f" = "abc"
  ∧ (∀ v fmt, fmtMatch fmt = none → _apply_format_spec v fmt = v)
  ∧ (∀ v fmt decimals, fmtMatch fmt = some decimals → parseFloat v = none →
      _apply_format_spec v fmt = v)
  ∧ (∀ v fmt decimals sgn mant e, fmtMatch fmt = some decimals →
      parseFloat v = some (sgn, mant, e) →
      _apply_format_spec v fmt = renderFixed decimals sgn mant e ∧
      decPlaces (_apply_format_spec v fmt) = decimals) := by
  refine ⟨fun v => rfl, by decide, by decide, ?_, ?_, ?_⟩
  · intro v fmt hf
    by_cases hfe : fmt = ""
    · simp [_apply_format_spec, hfe]
    · simp [_apply_format_spec, hfe, hf]
  · intro v fmt decimals hf hv
    have hfe : fmt ≠ "" := by
      intro hh
      rw [hh, show fmtMatch "" = none from by decide] at hf
      cases hf
    simp [_apply_format_spec, hfe, hf, hv]
  · intro v fmt decimals sgn mant e hf hv
    have hfe : fmt ≠ "" := by
      intro hh
      rw [hh, show fmtMatch "" = none from by decide] at hf
      cases hf
    have hmain : _apply_format_spec v fmt = renderFixed decimals sgn mant e := by
      simp [_apply_format_spec, hfe, hf, hv]
    exact ⟨hmain, by rw [hmain, decPlaces_renderFixed]⟩

theorem c4_witness :
    _apply_format_spec "2.5" "v.2F" = renderFixed 2 false 25 (-1) ∧
    decPlaces (_apply_format_spec "2.5" "v.2F") = 2 :=
  c4_value_formatter.2.2.2.2.2 "2.5" "v.2F" 2 false 25 (-1) (by decide) (by decide)

/-- C5 counterexample: with an empty raw spec, the template `{a} {a}` yields
one FREE parameter per placeholder *occurrence* (two here), not one per
distinct placeholder name (one here) as the claim states. -/
theorem c5_counterexample :
    parse_param_defs "" "{a} {a}"
      = [{ name := "a", kind := "free", options := [], format_spec := "" },
         { name := "a", kind := "free", options := [], format_spec := "" }] ∧
    parse_param_defs "" "{a} {a}"
      ≠ [{ name := "a", kind := "free", options := [], format_spec := "" }] := by
  decide

/-- C5 (amended): when the trimmed raw spec is empty or "nan"/"none"
(case-insensitively), the parser scans the template left to right and
returns one FREE parameter with no format spec per placeholder *occurrence*
(duplicate names give duplicate parameters); a template with no placeholders
gives the empty list. -/
theorem c5_placeholder_scan (s t : String)
    (h : pyStrip s = "" ∨ pyCasefold (pyStrip s) = "nan" ∨ pyCasefold (pyStrip s) = "none") :
    parse_param_defs s t
      = (_first_placeholder_names t).map
          (fun p => { name := p, kind := "free", options := [], format_spec := "" }) ∧
    ('{' ∉ t.toList → parse_param_defs s t = []) := by
  have hmain : parse_param_defs s t
      = (_first_placeholder_names t).map
          (fun p => { name := p, kind := "free", options := [], format_spec := "" }) := by
    simp only [parse_param_defs]
    rw [if_pos h]
  refine ⟨hmain, fun hb => ?_⟩
  rw [hmain, _first_placeholder_names, placeholderNamesLFuel_nil _ _ hb]
  rfl

theorem c5_witness :
    parse_param_defs " None " "SET { freq } X" =
      [{ name := "freq", kind := "free", options := [], format_spec := "" }] ∧
    parse_param_defs "nan" "ABORT" = [] := by
  refine ⟨?_, ?_⟩
  · rw [(c5_placeholder_scan " None " "SET { freq } X" (by decide)).1]
    decide
  · exact (c5_placeholder_scan "nan" "ABORT" (by decide)).2 (by decide)

/-- All-unset aliases resolve to nothing at the app layer (for a non-empty
requested alias; `findByAlias` compares against `""` for unset aliases). -/
theorem findByAlias_none_of_unset (coll : List Instrument) (a : String)
    (hall : ∀ i ∈ coll, i.alias = none) (ha : a ≠ "") : findByAlias coll a = none := by
  induction coll with
  | nil => rfl
  | cons i rest ih =>
    have hi := hall i (List.mem_cons_self i rest)
    rw [findByAlias, hi]
    rw [if_neg]
    · exact ih (fun j hj => hall j (List.mem_cons_of_mem i hj))
    · intro hcf
      have : pyCasefold a = "" := hcf.symm
      rw [pyCasefold_empty_iff] at this
      exact ha this

/-- C6: a discovery scan replaces the whole instrument set: the new
collection is computed from the scan environment alone (independently of the
previous state), every instrument in it has no alias, and therefore no alias
— in particular none assigned before the scan — resolves afterwards, either
through the registry's own alias matching or through the app-level lookup. -/
theorem c6_discover_replaces (st : upyvisaState) (env : List (String × ScanOutcome)) :
    (find_instruments st env).instrument_collection
      = env.filterMap (fun entry => scanResource entry.1 entry.2)
  ∧ (∀ i ∈ (find_instruments st env).instrument_collection, i.alias = none)
  ∧ (∀ a, matchingInstruments (find_instruments st env).instrument_collection a = [])
  ∧ (∀ a, a ≠ "" → findByAlias (find_instruments st env).instrument_collection a = none) := by
  have halias : ∀ i ∈ (find_instruments st env).instrument_collection, i.alias = none := by
    intro i hi
    rw [find_instruments] at hi
    obtain ⟨⟨r, o⟩, _, hscan⟩ := List.mem_filterMap.mp hi
    cases o with
    | failed => cases hscan
    | reply resp =>
      rw [scanResource] at hscan
      by_cases hlen : resp.length > 8
      · rw [if_pos hlen] at hscan
        have := Option.some.inj hscan
        rw [← this]
      · rw [if_neg hlen] at hscan
        cases hscan
  refine ⟨rfl, halias, ?_, ?_⟩
  · intro a
    rw [matchingInstruments, List.filter_eq_nil_iff]
    intro i hi
    rw [aliasMatch, halias i hi]
    simp
  · intro a ha
    exact findByAlias_none_of_unset _ a halias ha

theorem c6_witness :
    (find_instruments ⟨[⟨"USB9", DeviceKind.VISA, some "OLD", some "OLDM", some "OLDS", some "dev"⟩]⟩
        [("ASRL3", ScanOutcome.reply "ACME,M2,SN7,FW1")]).instrument_collection
      = [⟨"ASRL3", DeviceKind.SERIAL_115200_LF, some "ACME", some "M2", some "SN7 FW1", none⟩] ∧
    findByAlias (find_instruments ⟨[⟨"USB9", DeviceKind.VISA, some "OLD", some "OLDM", some "OLDS", some "dev"⟩]⟩
        [("ASRL3", ScanOutcome.reply "ACME,M2,SN7,FW1")]).instrument_collection "dev" = none := by
  constructor
  · rw [(c6_discover_replaces _ _).1]
    decide
  · exact (c6_discover_replaces _ _).2.2.2 "dev" (by decide)

/-- C7: `upyvisa.query` returns the concatenation (in reverse collection
order, and so "in some order") of the individual oracle responses of every
instrument whose alias matches under trim + casefold comparison, issuing one
transport query per matching instrument; with zero matches it returns the
empty string with no transport call and no error. -/
theorem c7_query_concatenates (coll : List Instrument)
    (oracle : Instrument → String → String) («alias» cmd : String) :
    upyvisa_query coll oracle «alias» cmd
      = (concatAll (((matchingInstruments coll «alias»).map (fun i => oracle i cmd)).reverse),
         (matchingInstruments coll «alias»).map (fun i => Call.query i.visa_name cmd))
  ∧ (matchingInstruments coll «alias» = [] →
      upyvisa_query coll oracle «alias» cmd = ("", [])) := by
  refine ⟨upyvisa_query_spec coll oracle «alias» cmd, fun h => ?_⟩
  rw [upyvisa_query_spec, h]
  rfl

theorem c7_witness :
    upyvisa_query
      [⟨"U1", DeviceKind.VISA, some "A", some "M", some "S1", some "dev"⟩,
       ⟨"U2", DeviceKind.VISA, some "A", some "M", some "S2", some " DEV "⟩]
      (fun i _ => i.visa_name) "dev" "IDN?"
      = ("U2U1", [Call.query "U1" "IDN?", Call.query "U2" "IDN?"]) ∧
    upyvisa_query
      [⟨"U1", DeviceKind.VISA, some "A", some "M", some "S1", some "dev"⟩]
      (fun i _ => i.visa_name) "ghost" "IDN?" = ("", []) := by
  constructor
  · rw [(c7_query_concatenates _ _ _ _).1]
    decide
  · exact (c7_query_concatenates _ _ _ _).2 (by decide)

/-- C8: `set_alias` is idempotent — if a call succeeds with result `r` and
registry `coll'`, running it again on `coll'` with the same arguments
succeeds with the same result and leaves the registry equal to `coll'`
(hence every alias, this one included, resolves identically afterwards). -/
theorem c8_set_alias_idempotent (coll : List Instrument)
    («alias» vendor model serial : String) (r : Int) (coll' : List Instrument)
    (h : set_alias coll «alias» vendor model serial = Except.ok (r, coll')) :
    set_alias coll' «alias» vendor model serial = Except.ok (r, coll') := by
  induction coll generalizing r coll' with
  | nil =>
    rw [set_alias] at h
    injection h with h'
    obtain ⟨hr, hc⟩ := Prod.mk.inj h'
    rw [← hr, ← hc]
    rfl
  | cons inst rest ih =>
    have hstep : consResult inst (set_alias rest «alias» vendor model serial) = Except.ok (r, coll') →
        ∃ rest', coll' = inst :: rest' ∧
          set_alias rest «alias» vendor model serial = Except.ok (r, rest') := by
      intro hcr
      cases hrec : set_alias rest «alias» vendor model serial with
      | error e =>
        rw [hrec] at hcr
        cases hcr
      | ok p =>
        obtain ⟨r0, rest'⟩ := p
        rw [hrec] at hcr
        rw [consResult] at hcr
        injection hcr with h'
        obtain ⟨hr, hc⟩ := Prod.mk.inj h'
        exact ⟨rest', hc.symm, by rw [hr]⟩
    rw [set_alias] at h
    split at h
    · cases h
    · rename_i iv hv
      split at h
      · rename_i h1
        split at h
        · cases h
        · rename_i im hm
          split at h
          · rename_i h2
            split at h
            · cases h
            · rename_i isr hs
              split at h
              · rename_i h3
                injection h with h'
                obtain ⟨hr, hc⟩ := Prod.mk.inj h'
                rw [← hc, ← hr]
                rw [set_alias]
                simp only [hv, hm, hs, if_pos h1, if_pos h2, if_pos h3]
              · rename_i h3
                obtain ⟨rest', rfl, hrec⟩ := hstep h
                rw [set_alias]
                simp only [hv, hm, hs, if_pos h1, if_pos h2, if_neg h3,
                  ih r rest' hrec, consResult]
          · rename_i h2
            obtain ⟨rest', rfl, hrec⟩ := hstep h
            rw [set_alias]
            simp only [hv, hm, if_pos h1, if_neg h2, ih r rest' hrec, consResult]
      · rename_i h1
        obtain ⟨rest', rfl, hrec⟩ := hstep h
        rw [set_alias]
        simp only [hv, if_neg h1, ih r rest' hrec, consResult]

theorem c8_witness :
    set_alias [⟨"U1", DeviceKind.VISA, some "Keysight", some "34465A", some "SN1", some "dmm"⟩]
      "dmm" " keysight " "34465A" "sn1"
      = Except.ok (1, [⟨"U1", DeviceKind.VISA, some "Keysight", some "34465A", some "SN1", some "dmm"⟩]) :=
  c8_set_alias_idempotent
    [⟨"U1", DeviceKind.VISA, some "Keysight", some "34465A", some "SN1", none⟩]
    "dmm" " keysight " "34465A" "sn1" 1
    [⟨"U1", DeviceKind.VISA, some "Keysight", some "34465A", some "SN1", some "dmm"⟩]
    (by decide)

/-- C9 counterexample: an earlier-iterated instrument with `None` model and
serial does *not* make `set_alias` raise when its vendor fails to match —
the conjunction short-circuits, and the call returns the ordinary `-1`
failure (here the claim predicts an exception). -/
theorem c9_counterexample :
    set_alias [⟨"U0", DeviceKind.VISA, some "A", none, none, none⟩] "x" "B" "M" "S"
      = Except.ok (-1, [⟨"U0", DeviceKind.VISA, some "A", none, none, none⟩]) := by
  decide

/-- C9 (amended): `set_alias` is partial on registries with `None` identity
fields, raising exactly when a `None` field is evaluated under Python's
short-circuit conjunction: a reached instrument with `None` vendor always
raises; `None` model raises iff the vendor matched; `None` serial raises iff
vendor and model matched; and discovery can produce such instruments — an
identity response longer than 8 characters that whitespace-splits into fewer
than three parts yields `None` model and serial. -/
theorem c9_none_field_partiality :
    (∀ (rest : List Instrument) («alias» vendor model serial : String) (inst : Instrument),
      inst.vendor = none →
      set_alias (inst :: rest) «alias» vendor model serial = Except.error "AttributeError")
  ∧ (∀ (rest : List Instrument) («alias» vendor model serial : String) (inst : Instrument) (iv : String),
      inst.vendor = some iv → pyCasefold (pyStrip iv) = pyCasefold (pyStrip vendor) →
      inst.model = none →
      set_alias (inst :: rest) «alias» vendor model serial = Except.error "AttributeError")
  ∧ (∀ (rest : List Instrument) («alias» vendor model serial : String) (inst : Instrument) (iv im : String),
      inst.vendor = some iv → pyCasefold (pyStrip iv) = pyCasefold (pyStrip vendor) →
      inst.model = some im → pyCasefold (pyStrip im) = pyCasefold (pyStrip model) →
      inst.serial = none →
      set_alias (inst :: rest) «alias» vendor model serial = Except.error "AttributeError")
  ∧ (∀ (st : upyvisaState) (r : String),
      (find_instruments st [(r, ScanOutcome.reply "INSTRUMENT7X")]).instrument_collection
        = [⟨r, devKindFor r, some "INSTRUMENT7X", none, none, none⟩]) := by
  refine ⟨?_, ?_, ?_, ?_⟩
  · intro rest a v m s inst hv
    rw [set_alias]
    simp only [hv]
  · intro rest a v m s inst iv hv h1 hm
    rw [set_alias]
    simp only [hv, hm, if_pos h1]
  · intro rest a v m s inst iv im hv h1 hm h2 hs
    rw [set_alias]
    simp only [hv, hm, hs, if_pos h1, if_pos h2]
  · intro st r
    rfl

theorem c9_witness :
    set_alias [⟨"U0", DeviceKind.VISA, some "INSTRUMENT7X", none, none, none⟩]
        "x" " instrument7x " "M" "S" = Except.error "AttributeError" ∧
    (find_instruments ⟨[]⟩ [("GPIB0", ScanOutcome.reply "INSTRUMENT7X")]).instrument_collection
      = [⟨"GPIB0", devKindFor "GPIB0", some "INSTRUMENT7X", none, none, none⟩] :=
  ⟨c9_none_field_partiality.2.1 []
      "x" " instrument7x " "M" "S"
      ⟨"U0", DeviceKind.VISA, some "INSTRUMENT7X", none, none, none⟩
      "INSTRUMENT7X" rfl (by decide) rfl,
   c9_none_field_partiality.2.2.2 ⟨[]⟩ "GPIB0"⟩

/-- C2: for a cataloged dispatch (alias resolves, command found) whose
parameter-def list is non-empty, if some def's supplied value is absent or
blank after trimming, `api_run` fails with a missing-value error naming a
parameter whose value is indeed missing (the first such, in parse order),
issues no transport call at all, and leaves the instrument collection
unchanged. -/
theorem c2_missing_value_no_dispatch
    (catalog : List (String × List ScpiCommand)) (coll : List Instrument)
    (oracle : Instrument → String → String) («alias» cmd_name : String)
    (values : Option (List (String × String))) (single_value : String)
    (inst : Instrument) (c : ScpiCommand)
    (h1 : pyStrip «alias» ≠ "") (h2 : pyStrip cmd_name ≠ "")
    (h3 : findByAlias coll (pyStrip «alias») = some inst)
    (h4 : findCmdByName (modelCmds catalog inst.model) (pyStrip cmd_name) = some c)
    (h5 : parse_param_defs c.parameters_raw c.cmd ≠ [])
    (h6 : ∃ d ∈ parse_param_defs c.parameters_raw c.cmd,
        missingIn (effectiveValues values (pyStrip single_value)
          (parse_param_defs c.parameters_raw c.cmd)) d = true) :
    ∃ d ∈ parse_param_defs c.parameters_raw c.cmd,
      missingIn (effectiveValues values (pyStrip single_value)
        (parse_param_defs c.parameters_raw c.cmd)) d = true ∧
      api_run catalog coll oracle «alias» cmd_name values single_value
        = (RunResult.missingValue d.name, [], coll) := by
  obtain ⟨d, hd, hmiss, herr⟩ :=
    substituteDefs_error_of_missing (parse_param_defs c.parameters_raw c.cmd)
      (effectiveValues values (pyStrip single_value) (parse_param_defs c.parameters_raw c.cmd))
      (pyStrip c.cmd) h6
  refine ⟨d, hd, hmiss, ?_⟩
  by_cases hmode : c.mode = "GET" <;>
    simp [api_run, h1, h2, h3, h4, h5, hmode, herr]

theorem c2_witness :
    ∃ d ∈ parse_param_defs "value" "VOLT {value}",
      missingIn (effectiveValues (some [("value", " ")]) (pyStrip "")
        (parse_param_defs "value" "VOLT {value}")) d = true ∧
      api_run [("M1", [⟨"SETV", "VOLT {value}", "SET", "value"⟩])]
        [⟨"U1", DeviceKind.VISA, some "A", some "M1", some "S", some "dev"⟩]
        (fun _ _ => "") "dev" "SETV" (some [("value", " ")]) ""
        = (RunResult.missingValue d.name, [],
           [⟨"U1", DeviceKind.VISA, some "A", some "M1", some "S", some "dev"⟩]) :=
  c2_missing_value_no_dispatch
    [("M1", [⟨"SETV", "VOLT {value}", "SET", "value"⟩])]
    [⟨"U1", DeviceKind.VISA, some "A", some "M1", some "S", some "dev"⟩]
    (fun _ _ => "") "dev" "SETV" (some [("value", " ")]) ""
    ⟨"U1", DeviceKind.VISA, some "A", some "M1", some "S", some "dev"⟩
    ⟨"SETV", "VOLT {value}", "SET", "value"⟩
    (by decide) (by decide) (by decide) (by decide) (by decide) (by decide)

/-- C3: for a cataloged dispatch with a non-empty parameter-def list whose
per-parameter substitution succeeds with working string `w`, the dispatched
command is `applyFallback` of `w`: when a placeholder remains it is replaced
— in every remaining position — by the trimmed first value of the
(necessarily non-empty) values map in insertion order, and when no
placeholder remains `w` is sent untouched; on an empty values map the
fallback never rewrites anything (vacuous here, since reaching the fallback
with non-empty defs forces a non-empty map). -/
theorem c3_fallback_first_value
    (catalog : List (String × List ScpiCommand)) (coll : List Instrument)
    (oracle : Instrument → String → String) («alias» cmd_name : String)
    (values : Option (List (String × String))) (single_value : String)
    (inst : Instrument) (c : ScpiCommand) (w : String)
    (h1 : pyStrip «alias» ≠ "") (h2 : pyStrip cmd_name ≠ "")
    (h3 : findByAlias coll (pyStrip «alias») = some inst)
    (h4 : findCmdByName (modelCmds catalog inst.model) (pyStrip cmd_name) = some c)
    (h5 : parse_param_defs c.parameters_raw c.cmd ≠ [])
    (h6 : substituteDefs (parse_param_defs c.parameters_raw c.cmd)
        (effectiveValues values (pyStrip single_value) (parse_param_defs c.parameters_raw c.cmd))
        (pyStrip c.cmd) = Except.ok w) :
    ((api_run catalog coll oracle «alias» cmd_name values single_value).1
      = (if c.mode = "GET"
         then RunResult.okGet
           (applyFallback (effectiveValues values (pyStrip single_value)
             (parse_param_defs c.parameters_raw c.cmd)) w)
           (upyvisa_query coll oracle (pyStrip «alias»)
             (applyFallback (effectiveValues values (pyStrip single_value)
               (parse_param_defs c.parameters_raw c.cmd)) w)).1
         else RunResult.okSet
           (applyFallback (effectiveValues values (pyStrip single_value)
             (parse_param_defs c.parameters_raw c.cmd)) w)))
  ∧ (∃ k0 v0 tl, effectiveValues values (pyStrip single_value)
        (parse_param_defs c.parameters_raw c.cmd) = (k0, v0) :: tl
      ∧ (hasPlaceholder w = true →
          applyFallback (effectiveValues values (pyStrip single_value)
            (parse_param_defs c.parameters_raw c.cmd)) w
            = subAllPlaceholders (pyStrip v0) w)
      ∧ (hasPlaceholder w = false →
          applyFallback (effectiveValues values (pyStrip single_value)
            (parse_param_defs c.parameters_raw c.cmd)) w = w))
  ∧ (∀ u, applyFallback [] u = u) := by
  obtain ⟨d, rest, hdefs⟩ := List.exists_cons_of_ne_nil h5
  have hvs : effectiveValues values (pyStrip single_value)
      (parse_param_defs c.parameters_raw c.cmd) ≠ [] := by
    apply substituteDefs_ok_values_ne_nil d rest _ (pyStrip c.cmd) w
    rw [← hdefs]
    exact h6
  refine ⟨?_, ?_, fun u => rfl⟩
  · by_cases hmode : c.mode = "GET" <;>
      simp [api_run, h1, h2, h3, h4, h5, hmode, h6]
  · cases hv : effectiveValues values (pyStrip single_value)
        (parse_param_defs c.parameters_raw c.cmd) with
    | nil => exact absurd hv hvs
    | cons p tl =>
      obtain ⟨k0, v0⟩ := p
      refine ⟨k0, v0, tl, rfl, fun hp => ?_, fun hp => ?_⟩
      · rw [applyFallback, if_pos hp]
      · rw [applyFallback, if_neg (by rw [hp]; exact Bool.false_ne_true)]

theorem c3_witness :
    (api_run [("M1", [⟨"SETF", "SET {a} {x}", "SET", "a"⟩])]
      [⟨"U1", DeviceKind.VISA, some "A", some "M1", some "S", some "dev"⟩]
      (fun _ _ => "") "dev" "SETF" (some [("a", " 1 ")]) "").1
      = RunResult.okSet "SET 1 1" := by
  have h := c3_fallback_first_value
    [("M1", [⟨"SETF", "SET {a} {x}", "SET", "a"⟩])]
    [⟨"U1", DeviceKind.VISA, some "A", some "M1", some "S", some "dev"⟩]
    (fun _ _ => "") "dev" "SETF" (some [("a", " 1 ")]) ""
    ⟨"U1", DeviceKind.VISA, some "A", some "M1", some "S", some "dev"⟩
    ⟨"SETF", "SET {a} {x}", "SET", "a"⟩ "SET 1 {x}"
    (by decide) (by decide) (by decide) (by decide) (by decide) (by decide)
  rw [h.1]
  decide

/-- C10: a non-blank ad-hoc command through `/api/custom` is dispatched as a
transport query — with its response returned to the caller — iff the trimmed
command contains `?`; otherwise it is dispatched as a transport write and
the returned response is the empty string. -/
theorem c10_custom_query_iff
    (coll : List Instrument) (oracle : Instrument → String → String)
    («alias» cmd : String)
    (h1 : pyStrip «alias» ≠ "") (h2 : pyStrip cmd ≠ "") :
    ((pyStrip cmd).toList.contains '?' = true →
      api_custom coll oracle «alias» cmd
        = (CustomResult.ok (pyStrip cmd)
            (upyvisa_query coll oracle (pyStrip «alias») (pyStrip cmd)).1,
           (upyvisa_query coll oracle (pyStrip «alias») (pyStrip cmd)).2)
      ∧ ∀ call ∈ (api_custom coll oracle «alias» cmd).2, call.isQuery = true)
  ∧ ((pyStrip cmd).toList.contains '?' = false →
      api_custom coll oracle «alias» cmd
        = (CustomResult.ok (pyStrip cmd) "", upyvisa_write coll (pyStrip «alias») (pyStrip cmd))
      ∧ ∀ call ∈ (api_custom coll oracle «alias» cmd).2, call.isQuery = false) := by
  constructor
  · intro hq
    have hmain : api_custom coll oracle «alias» cmd
        = (CustomResult.ok (pyStrip cmd)
            (upyvisa_query coll oracle (pyStrip «alias») (pyStrip cmd)).1,
           (upyvisa_query coll oracle (pyStrip «alias») (pyStrip cmd)).2) := by
      have hmem : '?' ∈ (pyStrip cmd).toList := by simpa using hq
      simp only [api_custom, h1, h2, hmem]
      simp [hmem]
      intro hno
      exact absurd hmem hno
    refine ⟨hmain, ?_⟩
    rw [hmain]
    rw [upyvisa_query_spec]
    intro call hcall
    simp only [List.mem_map] at hcall
    obtain ⟨i, _, hform⟩ := hcall
    rw [← hform]
    rfl
  · intro hq
    have hmain : api_custom coll oracle «alias» cmd
        = (CustomResult.ok (pyStrip cmd) "",
           upyvisa_write coll (pyStrip «alias») (pyStrip cmd)) := by
      have hmem : '?' ∉ (pyStrip cmd).toList := by simpa using hq
      simp [api_custom, h1, h2, hmem]
      intro hyes
      exact absurd hyes hmem
    refine ⟨hmain, ?_⟩
    rw [hmain]
    exact upyvisa_write_all_writes coll (pyStrip «alias») (pyStrip cmd)

theorem c10_witness :
    api_custom [⟨"U1", DeviceKind.VISA, some "A", some "M1", some "S", some "dev"⟩]
      (fun i _ => i.visa_name) "dev" " MEAS? "
      = (CustomResult.ok "MEAS?" "U1", [Call.query "U1" "MEAS?"]) ∧
    api_custom [⟨"U1", DeviceKind.VISA, some "A", some "M1", some "S", some "dev"⟩]
      (fun i _ => i.visa_name) "dev" "RST"
      = (CustomResult.ok "RST" "", [Call.write "U1" "RST"]) := by
  constructor
  · have h := (c10_custom_query_iff
      [⟨"U1", DeviceKind.VISA, some "A", some "M1", some "S", some "dev"⟩]
      (fun i _ => i.visa_name) "dev" " MEAS? " (by decide) (by decide)).1 (by decide)
    rw [h.1]
    decide
  · have h := (c10_custom_query_iff
      [⟨"U1", DeviceKind.VISA, some "A", some "M1", some "S", some "dev"⟩]
      (fun i _ => i.visa_name) "dev" "RST" (by decide) (by decide)).2 (by decide)
    rw [h.1]
    decide
